import Mathlib

/-!
Shallow embedding of the storage and configuration layer of cfm_helpers.py.

Strings from the Python side are modelled as lists of characters so that the
whitespace handling of str.strip, str.rstrip, str.split and file readlines can
be reproduced exactly.  Fallible Python code (uncaught exceptions, calls to
exit) is modelled with explicit result types.
-/

/-- Model of a Python string: a list of characters. -/
abbrev Str := List Char

/-- Characters treated as whitespace by the Python str.strip family. -/
def isPySpace (c : Char) : Bool :=
  c = ' ' || c = '\t' || c = '\n' || c = '\r' || c = '\x0b' || c = '\x0c'

/-- Model of Python str.lstrip with no argument. -/
def pylstrip (s : Str) : Str := s.dropWhile isPySpace

/-- Model of Python str.rstrip with no argument. -/
def pyrstrip (s : Str) : Str := (s.reverse.dropWhile isPySpace).reverse

/-- Model of Python str.strip with no argument. -/
def pystrip (s : Str) : Str := pylstrip (pyrstrip s)

/-- Model of Python str.split(sep) for a one-character separator: the pieces
between occurrences of the separator, empty pieces kept, and a single empty
piece for the empty string. -/
def splitChar (sep : Char) : Str → List Str
  | [] => [[]]
  | c :: cs =>
    let r := splitChar sep cs
    if c = sep then [] :: r
    else
      match r with
      | [] => [[c]]
      | x :: xs => (c :: x) :: xs

/-- Model of Python line.split(sep, 1) when the separator occurs in the line:
the part before the first separator and the part after it. -/
def splitOnce (sep : Char) : Str → Str × Str
  | [] => ([], [])
  | c :: cs =>
    if c = sep then ([], cs)
    else
      let r := splitOnce sep cs
      (c :: r.1, r.2)

/-- Helper for readlines: accumulates the current line in reverse. -/
def readlinesGo (acc : Str) : Str → List Str
  | [] => if acc = [] then [] else [acc.reverse]
  | c :: rest =>
    if c = '\n' then (acc.reverse ++ ['\n']) :: readlinesGo [] rest
    else readlinesGo (c :: acc) rest

/-- Model of Python file.readlines(): split the raw content after each newline,
keeping the newline at the end of each line; a final piece without a newline is
kept, an empty final piece is not. -/
def readlines (raw : Str) : List Str := readlinesGo [] raw

/-- Model of Python list indexing l[i] for an Int index: non-negative indices
from the front, negative indices from the back; none when the index is out of
range (an IndexError in Python). -/
def pyGet {α : Type} (l : List α) (i : Int) : Option α :=
  if 0 ≤ i then l.get? i.toNat
  else if (-i).toNat ≤ l.length then l.get? (l.length - (-i).toNat) else none

/-- Per-line test and yield of get_useful_lines (cfm_helpers.py lines 128 to
130): if the line does not start with the comment character and has positive
length, yield line.rstrip().  Note that every line produced by readlines still
carries its newline, so its length is positive even for a blank line. -/
def usefulFilter (line : Str) : Option Str :=
  if ¬ line.head? = some '#' ∧ line.length > 0 then some (pyrstrip line) else none

/-- Model of get_useful_lines (cfm_helpers.py lines 116 to 130), given the raw
content of an existing file: the filtered, right-stripped lines of readlines. -/
def get_useful_lines (raw : Str) : List Str :=
  (readlines raw).filterMap usefulFilter

/-- Value currently being accumulated by the config scanner: the Python local
variable result is either a string or a list of strings. -/
inductive PyVal : Type
  | pstr (s : Str)
  | plist (xs : List Str)
deriving DecidableEq

/-- A value stored in the parsed configuration mapping: either a scalar string
or an ordered list of strings. -/
inductive ConfigValue : Type
  | scalar (s : Str)
  | vlist (xs : List Str)
deriving DecidableEq

/-- Python len of the accumulated value. -/
def valLen : PyVal → Nat
  | .pstr s => s.length
  | .plist xs => xs.length

/-- Conversion of the accumulated value into a stored configuration value. -/
def flushVal : PyVal → ConfigValue
  | .pstr s => .scalar s
  | .plist xs => .vlist xs

/-- Model of Python dict assignment d[k] = v on an association list: replace
the binding of k when present, append it otherwise. -/
def insertAssoc (k : Str) (v : ConfigValue) : List (Str × ConfigValue) → List (Str × ConfigValue)
  | [] => [(k, v)]
  | (k', v') :: rest => if k' = k then (k, v) :: rest else (k', v') :: insertAssoc k v rest

/-- Model of Python dict lookup d[k] on an association list built with
insertAssoc. -/
def lookupAssoc (k : Str) : List (Str × ConfigValue) → Option ConfigValue
  | [] => none
  | (k', v') :: rest => if k' = k then some v' else lookupAssoc k rest

/-- Scanner loop of get_config_value (cfm_helpers.py lines 142 to 165) over the
useful lines.  result is the value being accumulated, key the Python local of
the same name (none while still unassigned), results the dict built so far.
none models an uncaught exception: result.append on a string value
(AttributeError) or a flush while key is unassigned (NameError). -/
def parseGo (result : PyVal) (key : Option Str) (results : List (Str × ConfigValue)) :
    List Str → Option (List (Str × ConfigValue))
  | [] =>
    if valLen result > 0 then
      match key with
      | some k => some (insertAssoc k (flushVal result) results)
      | none => none
    else some results
  | line :: rest =>
    if ':' ∈ line ∧ ¬ line.head? = some ' ' then
      let results' : Option (List (Str × ConfigValue)) :=
        if valLen result > 0 then
          match key with
          | some k => some (insertAssoc k (flushVal result) results)
          | none => none
        else some results
      match results' with
      | none => none
      | some rs =>
        let kv := splitOnce ':' (pystrip line)
        let value := pystrip kv.2
        if value.length > 0 then parseGo (.pstr value) (some kv.1) rs rest
        else parseGo (.plist []) (some kv.1) rs rest
    else
      match result with
      | .pstr _ => none
      | .plist xs => parseGo (.plist (xs ++ [pystrip line])) key results rest

/-- Result of a call to get_config_value: an uncaught exception, a process
exit with the given status, the sentinel integer zero returned when the key is
missing and suppression is on, or a parsed value. -/
inductive GCVResult : Type
  | crash
  | fatal (code : Nat)
  | sentinel
  | value (v : ConfigValue)
deriving DecidableEq

/-- Model of get_config_value (cfm_helpers.py lines 133 to 173) applied to the
raw content of an existing configuration file.  When the requested key is
absent the function exits via the no-argument exit(), whose process status is
zero; with suppression on it returns the sentinel zero instead. -/
def get_config_value (config_key : Str) (raw : Str) (suppress_key_not_found : Bool) : GCVResult :=
  match parseGo (.pstr []) none [] (get_useful_lines raw) with
  | none => .crash
  | some results =>
    match lookupAssoc config_key results with
    | some v => .value v
    | none => if suppress_key_not_found then .sentinel else .fatal 0

/-- Last-wins search for a column name: model of the column_index dict built in
CsvReader enter (cfm_helpers.py lines 558 to 566), where enumerate assigns each
header name its position and a duplicate name keeps the later position. -/
def colIndexAux (name : Str) : List Str → Nat → Option Nat
  | [], _ => none
  | x :: xs, i =>
    match colIndexAux name xs (i + 1) with
    | some j => some j
    | none => if x = name then some i else none

/-- Position assigned to a column name by the header dict, none when absent. -/
def colIndex (names : List Str) (name : Str) : Option Nat := colIndexAux name names 0

/-- Model of CsvReader.column (cfm_helpers.py lines 589 to 593) for the current
record split into words: a missing column name is a KeyError after the printed
message, and a position beyond the record is an IndexError; both give none. -/
def csvColumn (names : List Str) (words : List Str) (name : Str) : Option Str :=
  match colIndex names name with
  | some i => words.get? i
  | none => none

/-- Digit string to natural number. -/
def digitsToNat (l : Str) : Nat := l.foldl (fun acc c => acc * 10 + (c.toNat - '0'.toNat)) 0

/-- Unsigned decimal part of the Python float() builtin on the decimal strings
this program feeds it: digits with an optional single point; none models a
ValueError. -/
def parseUnsignedDecimal (s : Str) : Option ℚ :=
  match splitChar '.' s with
  | [ip] => if ip ≠ [] ∧ ip.all Char.isDigit then some (digitsToNat ip) else none
  | [ip, fp] =>
    if (ip ≠ [] ∨ fp ≠ []) ∧ ip.all Char.isDigit ∧ fp.all Char.isDigit then
      some (mkRat (digitsToNat ip * 10 ^ fp.length + digitsToNat fp) (10 ^ fp.length))
    else none
  | _ => none

/-- Model of the Python float() builtin on stripped decimal strings with an
optional sign, the only shapes this program passes to it. -/
def parseFloat (s : Str) : Option ℚ :=
  match pystrip s with
  | '+' :: rest => parseUnsignedDecimal rest
  | '-' :: rest => (parseUnsignedDecimal rest).map (fun q => -q)
  | t => parseUnsignedDecimal t

/-- Contribution of one record to the running total of get_total_from_csv:
either the product of the two columns named in the spec around the star, or the
single named column (cfm_helpers.py lines 229 to 234).  none models an uncaught
exception from a missing column or a float conversion failure. -/
def recordContribution (names : List Str) (key_column : Str) (words : List Str) : Option ℚ :=
  if '*' ∈ key_column then
    match splitChar '*' key_column with
    | a :: b :: _ => do
      let xa ← csvColumn names words a
      let xb ← csvColumn names words b
      let qa ← parseFloat xa
      let qb ← parseFloat xb
      pure (qa * qb)
    | _ => none
  else do
    let x ← csvColumn names words key_column
    let q ← parseFloat x
    pure q

/-- Loop of get_total_from_csv over the record lines: each line is stripped and
split on commas, its contribution added to the accumulator. -/
def sumRecords (names : List Str) (key_column : Str) : List Str → ℚ → Option ℚ
  | [], acc => some acc
  | r :: rs, acc =>
    match recordContribution names key_column (splitChar ',' (pystrip r)) with
    | some q => sumRecords names key_column rs (acc + q)
    | none => none

/-- Result of get_total_from_csv: a fatal exit from the column_present check,
an uncaught exception, or the computed total. -/
inductive GTResult : Type
  | fatal
  | crash
  | ok (total : ℚ)
deriving DecidableEq

/-- Model of get_total_from_csv (cfm_helpers.py lines 219 to 235) on the list
of lines of the csv file.  The header is the stripped first line split on
commas; the whole key_column string is first checked against the header by
column_present, and the records are the remaining lines. -/
def get_total_from_csv (lines : List Str) (key_column : Str) : GTResult :=
  let header := pystrip (lines.headD [])
  let names := splitChar ',' header
  match colIndex names key_column with
  | none => .fatal
  | some _ =>
    match sumRecords names key_column lines.tail 0 with
    | some t => .ok t
    | none => .crash

/-- Result of CsvReader.column_by_number: the fatal exit from the bounds
message, an uncaught IndexError, or a field of the current record. -/
inductive CbnResult : Type
  | fatal
  | indexError
  | field (f : Str)
deriving DecidableEq

/-- Model of CsvReader.column_by_number (cfm_helpers.py lines 595 to 600) on
the current record already split into words, for an integer argument: exit when
the number exceeds the word count, otherwise Python indexing at number minus
one, which wraps around for indices down to minus the length. -/
def column_by_number (words : List Str) (column_number : Int) : CbnResult :=
  if column_number > (words.length : Int) then .fatal
  else
    match pyGet words (column_number - 1) with
    | some f => .field f
    | none => .indexError

/-- Value held by an attribute set from a configuration lookup: a scalar
string, a list of strings, or the integer sentinel zero returned by
get_config_value under suppression. -/
inductive AttrVal : Type
  | vstr (s : Str)
  | vlistv (xs : List Str)
  | vzero
deriving DecidableEq

/-- Attributes assigned by S3Initializer (cfm_helpers.py lines 413 to 441).
none means the attribute was never assigned, the situation Python hasattr
tests.  No branch of the source ever assigns kms_key_arn as an attribute; the
vcap branch stores the split result under kms_key_id. -/
structure S3Attrs : Type where
  access_key_id : Option AttrVal
  secret_access_key : Option AttrVal
  bucket : Option AttrVal
  kms_key_id : Option AttrVal
  kms_key_arn : Option AttrVal
deriving DecidableEq

/-- Credentials of the aws-s3 entry of VCAP_SERVICES, with the fields the
source reads from the credentials dict. -/
structure VcapCreds : Type where
  access_key_id : Str
  secret_access_key : Str
  bucket : Str
  kms_key_arn : Option Str
deriving DecidableEq

/-- State of the VCAP_SERVICES environment variable: unset, set without an
aws-s3 service, or set with one whose credentials are given. -/
inductive VcapEnv : Type
  | unset
  | noS3
  | s3 (c : VcapCreds)
deriving DecidableEq

/-- Result of running the S3Initializer constructor: an uncaught exception, a
process exit with the given status, or the assigned attributes. -/
inductive InitResult : Type
  | crash
  | exitWith (code : Nat)
  | ok (attrs : S3Attrs)
deriving DecidableEq

/-- Attribute value from a parsed configuration value. -/
def attrOfConfig : ConfigValue → AttrVal
  | .scalar s => .vstr s
  | .vlist xs => .vlistv xs

/-- The aws.cfg branch of S3Initializer (cfm_helpers.py lines 432 to 437),
given the raw content of aws.cfg: access_key_id, secret_access_key and bucket
are looked up fatally, and then kms_key_id is set from another lookup of the
key bucket, with key-not-found suppressed.  The source never consults a
kms_key_arn key here and never splits the stored value. -/
def initFromCfg (raw : Str) : InitResult :=
  match get_config_value "access_key_id".data raw false with
  | .crash => .crash
  | .fatal c => .exitWith c
  | .sentinel => .crash
  | .value a =>
    match get_config_value "secret_access_key".data raw false with
    | .crash => .crash
    | .fatal c => .exitWith c
    | .sentinel => .crash
    | .value s =>
      match get_config_value "bucket".data raw false with
      | .crash => .crash
      | .fatal c => .exitWith c
      | .sentinel => .crash
      | .value b =>
        match get_config_value "bucket".data raw true with
        | .crash => .crash
        | .fatal c => .exitWith c
        | .sentinel =>
          .ok ⟨some (attrOfConfig a), some (attrOfConfig s), some (attrOfConfig b),
               some .vzero, none⟩
        | .value k =>
          .ok ⟨some (attrOfConfig a), some (attrOfConfig s), some (attrOfConfig b),
               some (attrOfConfig k), none⟩

/-- Model of the S3Initializer constructor (cfm_helpers.py lines 416 to 441).
With VCAP_SERVICES set, a missing aws-s3 service makes
get_service_from_vcap_services print and call the no-argument exit (status
zero); otherwise the credential fields are stored, and when kms_key_arn is
present it is split on the slash character and element one of the pieces is
stored as kms_key_id (an IndexError when there is no slash).  Without
VCAP_SERVICES, an existing aws.cfg is parsed; with neither, s3_only decides
between exit(1) and assigning no bucket attribute at all. -/
def s3InitializerRun (env : VcapEnv) (awsCfg : Option Str) (s3_only : Bool) : InitResult :=
  match env with
  | .s3 c =>
    match c.kms_key_arn with
    | some arn =>
      match (splitChar '/' arn).get? 1 with
      | some kid =>
        .ok ⟨some (.vstr c.access_key_id), some (.vstr c.secret_access_key),
             some (.vstr c.bucket), some (.vstr kid), none⟩
      | none => .crash
    | none =>
      .ok ⟨some (.vstr c.access_key_id), some (.vstr c.secret_access_key),
           some (.vstr c.bucket), some (.vstr []), none⟩
  | .noS3 => .exitWith 0
  | .unset =>
    match awsCfg with
    | some raw => initFromCfg raw
    | none => if s3_only then .exitWith 1 else .ok ⟨none, none, none, none, none⟩

/-- Extra arguments the source passes to upload_file in S3Writer exit
(cfm_helpers.py lines 648 to 651): a dict with the server side encryption
fields when the instance has a kms_key_arn attribute, and None otherwise.
When the branch is taken the value sent for the key id is the literal text
self.kms_key_arn, since the source quotes it. -/
structure SSEArgs : Type where
  serverSideEncryption : Str
  sseKmsKeyId : Str
deriving DecidableEq

/-- Model of the ExtraArgs computation of S3Writer exit. -/
def s3WriterExitExtraArgs (attrs : S3Attrs) : Option SSEArgs :=
  match attrs.kms_key_arn with
  | some _ => some ⟨"aws:kms".data, "self.kms_key_arn".data⟩
  | none => none

/-- A local filesystem: a map from file name to content for existing files. -/
def FS : Type := String → Option String

/-- Filesystem operations performed while opening a file for writing. -/
inductive FsOp : Type
  | copy (src dst : String)
  | openTrunc (name : String)

/-- Effect of one operation on the filesystem: shutil.copy2 duplicates the
source content under the destination name, and opening for writing truncates
the target to empty content. -/
def applyOp (fs : FS) : FsOp → FS
  | .copy s d => fun n => if n = d then fs s else fs n
  | .openTrunc f => fun n => if n = f then some "" else fs n

/-- Effect of a sequence of operations, first operation applied first. -/
def applyOps (fs : FS) : List FsOp → FS
  | [] => fs
  | op :: ops => applyOps (applyOp fs op) ops

/-- Operations performed by S3Writer enter (cfm_helpers.py lines 634 to 640):
when a file of the target name exists it is first copied to the name with the
sav suffix, then the target is opened for writing. -/
def s3WriterEnterOps (fs : FS) (filename : String) : List FsOp :=
  (if (fs filename).isSome then [.copy filename (filename ++ ".sav")] else [])
    ++ [.openTrunc filename]

/-- Operations performed by CsvWriter enter (cfm_helpers.py lines 667 to 670):
the target is opened for writing immediately, with no copy. -/
def csvWriterEnterOps (fs : FS) (filename : String) : List FsOp :=
  [.openTrunc filename]

/-- The backup property claimed for a write scope: the opening sequence
truncates the target, and at any point where the truncation happens the backup
file already holds the old content. -/
def savBefore (fs : FS) (filename content : String) (ops : List FsOp) : Prop :=
  FsOp.openTrunc filename ∈ ops ∧
    ∀ pre suf, ops = pre ++ FsOp.openTrunc filename :: suf →
      applyOps fs pre (filename ++ ".sav") = some content

/-- Response of the remote list_objects_v2 call seen by files_present: a
ClientError, or a response with or without a Contents entry. -/
inductive ListResponse : Type
  | clientError
  | ok (contents : Option (List String))
deriving DecidableEq

/-- Result of FileManager.files_present: the fatal exit on a ClientError, or
the Python return value, which is None when the method falls off the end. -/
inductive FPResult : Type
  | fatal
  | ret (r : Option Nat)
deriving DecidableEq

/-- Model of FileManager.files_present (cfm_helpers.py lines 479 to 495).
bucket is the optional bucket attribute, localFiles the entries of the current
working directory, which this method never consults, pfx the optional prefix
argument and resp the response of the remote listing call.  Without a bucket
attribute no branch is taken and the method returns None. -/
def files_present (bucket : Option String) (localFiles : List String)
    (pfx : Option String) (resp : ListResponse) : FPResult :=
  match bucket with
  | some _ =>
    match resp with
    | .clientError => .fatal
    | .ok (some contents) => .ret (some contents.length)
    | .ok none => .ret (some 0)
  | none => .ret none

/-- Claim C10: in local-only mode, with no bucket attribute resolved,
files_present returns None for every prefix argument and whatever the current
directory holds; only with a bucket does it return an integer count. -/
theorem files_present_local_none :
    (∀ (localFiles : List String) (pfx : Option String) (resp : ListResponse),
      files_present none localFiles pfx resp = .ret none) ∧
    (∀ (b : String) (localFiles : List String) (pfx : Option String)
      (c : Option (List String)), ∃ k,
      files_present (some b) localFiles pfx (.ok c) = .ret (some k)) := by
  constructor
  · intro _ _ _; rfl
  · intro b _ _ c
    cases c with
    | none => exact ⟨0, rfl⟩
    | some l => exact ⟨l.length, rfl⟩

/-- Claim C8: over a parsed configuration file, a missing key is fatal when
suppression is off and yields the sentinel when suppression is on, while for a
present key the suppression flag has no effect on the returned value. -/
theorem get_config_value_missing_key (config_key raw : Str)
    (m : List (Str × ConfigValue))
    (hp : parseGo (.pstr []) none [] (get_useful_lines raw) = some m) :
    (lookupAssoc config_key m = none →
      get_config_value config_key raw false = .fatal 0 ∧
      get_config_value config_key raw true = .sentinel) ∧
    (∀ v, lookupAssoc config_key m = some v →
      ∀ s : Bool, get_config_value config_key raw s = .value v) := by
  constructor
  · intro h
    refine ⟨?_, ?_⟩ <;> simp [get_config_value, hp, h]
  · intro v h s
    simp [get_config_value, hp, h]

/-- Witness for C8 on a one-key file. -/
theorem get_config_value_missing_key_witness :
    (get_config_value "k".data "a: b\n".data false = .fatal 0 ∧
     get_config_value "k".data "a: b\n".data true = .sentinel) ∧
    get_config_value "a".data "a: b\n".data true = .value (.scalar "b".data) :=
  ⟨(get_config_value_missing_key "k".data "a: b\n".data
      [("a".data, .scalar "b".data)] (by decide)).1 (by decide),
   (get_config_value_missing_key "a".data "a: b\n".data
      [("a".data, .scalar "b".data)] (by decide)).2 (.scalar "b".data) (by decide) true⟩

/-- Claim C9: the fatal termination on a missing key with suppression off goes
through the no-argument exit, so the process status on this path is zero. -/
theorem get_config_value_missing_key_exit_status (config_key raw : Str)
    (m : List (Str × ConfigValue))
    (hp : parseGo (.pstr []) none [] (get_useful_lines raw) = some m)
    (habs : lookupAssoc config_key m = none) :
    get_config_value config_key raw false = .fatal 0 := by
  simp [get_config_value, hp, habs]

/-- Witness for C9. -/
theorem get_config_value_missing_key_exit_status_witness :
    get_config_value "missing".data "a: b\n".data false = .fatal 0 :=
  get_config_value_missing_key_exit_status "missing".data "a: b\n".data
    [("a".data, .scalar "b".data)] (by decide) (by decide)

/-- Claim C5: blank lines are not ignored by the parser.  readlines keeps the
newline on every line, so a blank line passes the positive-length filter of
get_useful_lines and reaches the scanner as an empty string: inside a list
region it becomes an extra empty member, and after a scalar value the append
crashes.  The same file without the blank line parses to the two members. -/
theorem blank_line_not_ignored :
    get_config_value "LICENSED_SERVICES".data
        "LICENSED_SERVICES:\n- foo\n\n- bar\n".data false
      = .value (.vlist ["- foo".data, "".data, "- bar".data]) ∧
    get_config_value "LICENSED_SERVICES".data
        "LICENSED_SERVICES:\n- foo\n- bar\n".data false
      = .value (.vlist ["- foo".data, "- bar".data]) ∧
    get_config_value "a".data "a: b\n\nc: d\n".data false = .crash :=
  ⟨by decide, by decide, by decide⟩

attribute [local semireducible] Rat.add Rat.mul in
/-- Claim C2: with spec a*b over a file whose header is a,b the code exits
fatally, because column_present is checked with the whole spec string, which is
not a header column; the single-column spec works as described. -/
theorem get_total_from_csv_product_spec_fatal :
    get_total_from_csv ["a,b".data, "2.0,3.0".data] "a*b".data = .fatal ∧
    get_total_from_csv ["a".data, "1.5".data, "2.5".data] "a".data = .ok 4 :=
  ⟨by decide, by decide⟩

/-- Claim C3: resolving credentials from aws.cfg stores the value of the
bucket key as kms_key_id, unsplit, even when the file carries a kms_key_arn
key whose trailing segment is abc123; the VCAP branch, in contrast, does split
its kms_key_arn on the slash. -/
theorem aws_cfg_kms_key_id_is_bucket :
    initFromCfg
        "access_key_id: AK\nsecret_access_key: SK\nbucket: mybucket\nkms_key_arn: arn:aws:kms:us-east-1:123456789012:key/abc123\n".data
      = .ok ⟨some (.vstr "AK".data), some (.vstr "SK".data),
             some (.vstr "mybucket".data), some (.vstr "mybucket".data), none⟩ ∧
    s3InitializerRun
        (.s3 ⟨"AK".data, "SK".data, "B".data,
              some "arn:aws:kms:us-east-1:123456789012:key/abc123".data⟩) none false
      = .ok ⟨some (.vstr "AK".data), some (.vstr "SK".data), some (.vstr "B".data),
             some (.vstr "abc123".data), none⟩ :=
  ⟨by decide, by decide⟩

/-- Counterexample for C1: a CsvWriter write scope over a filesystem holding
old content under the target name truncates the target without ever producing
the sav backup. -/
theorem csv_writer_no_backup :
    (fun n => if n = "data.csv" then some "old" else none : FS) "data.csv" = some "old" ∧
    ¬ savBefore (fun n => if n = "data.csv" then some "old" else none) "data.csv" "old"
        (csvWriterEnterOps (fun n => if n = "data.csv" then some "old" else none) "data.csv") := by
  constructor
  · decide
  · intro hsb
    have h : (if ("data.csv" ++ ".sav" : String) = "data.csv" then some "old"
        else (none : Option String)) = some "old" := hsb.2 [] [] rfl
    rw [if_neg (by decide)] at h
    exact Option.noConfusion h

/-- Claim C1 as amended: the backup invariant holds for S3Writer, whose enter
copies the existing file to the sav name before the truncating open. -/
theorem s3_writer_backup_before_truncate (fs : FS) (filename content : String)
    (h : fs filename = some content) :
    savBefore fs filename content (s3WriterEnterOps fs filename) := by
  have hops : s3WriterEnterOps fs filename
      = [FsOp.copy filename (filename ++ ".sav"), FsOp.openTrunc filename] := by
    simp [s3WriterEnterOps, h]
  rw [hops]
  constructor
  · simp
  · intro pre suf heq
    rcases pre with _ | ⟨a, _ | ⟨b, pre⟩⟩
    · simp at heq
    · simp only [List.cons_append, List.nil_append, List.cons.injEq] at heq
      obtain ⟨ha, -⟩ := heq
      subst ha
      simp [applyOps, applyOp, h]
    · have hl := congrArg List.length heq
      simp at hl

/-- Witness for the amended C1. -/
theorem s3_writer_backup_before_truncate_witness :
    savBefore (fun n => if n = "report.csv" then some "old" else none) "report.csv" "old"
      (s3WriterEnterOps (fun n => if n = "report.csv" then some "old" else none) "report.csv") :=
  s3_writer_backup_before_truncate _ "report.csv" "old" (by decide)

/-- Counterexample for C7: column number zero on a two-field record is below
the claimed lower bound, yet the call returns the last field instead of
signalling the fatal error. -/
theorem column_by_number_no_lower_bound :
    column_by_number ["x".data, "y".data] 0 = .field "y".data ∧
    column_by_number ["x".data, "y".data] 0 ≠ .fatal :=
  ⟨by decide, by decide⟩

/-- Claim C7 as amended: only the upper bound is checked.  A number above the
field count is fatal; numbers from one to the count return the numbered field;
numbers from one minus the count up to zero wrap around Python-style and also
return a field; only below that does the call raise an unhandled IndexError. -/
theorem column_by_number_amended (words : List Str) (n : Int) :
    (n > (words.length : Int) → column_by_number words n = .fatal) ∧
    (1 ≤ n → n ≤ (words.length : Int) →
      ∀ f, words.get? (n - 1).toNat = some f → column_by_number words n = .field f) ∧
    (1 - (words.length : Int) ≤ n → n ≤ 0 →
      ∀ f, words.get? ((words.length : Int) + n - 1).toNat = some f →
        column_by_number words n = .field f) ∧
    (n < 1 - (words.length : Int) → column_by_number words n = .indexError) := by
  refine ⟨?_, ?_, ?_, ?_⟩
  · intro hgt
    simp only [column_by_number]
    rw [if_pos hgt]
  · intro h1 h2 f hf
    simp only [column_by_number, pyGet]
    rw [if_neg (by omega), if_pos (by omega)]
    rw [hf]
  · intro h1 h2 f hf
    simp only [column_by_number, pyGet]
    rw [if_neg (by omega), if_neg (by omega), if_pos (by omega)]
    have hidx : words.length - (-(n - 1)).toNat = ((words.length : Int) + n - 1).toNat := by
      omega
    rw [hidx, hf]
  · intro hlt
    simp only [column_by_number, pyGet]
    rw [if_neg (by omega), if_neg (by omega), if_neg (by omega)]

/-- Witness for the amended C7, exercising all four regimes on a two-field
record. -/
theorem column_by_number_amended_witness :
    column_by_number ["x".data, "y".data] 3 = .fatal ∧
    column_by_number ["x".data, "y".data] 2 = .field "y".data ∧
    column_by_number ["x".data, "y".data] 0 = .field "y".data ∧
    column_by_number ["x".data, "y".data] (-5) = .indexError :=
  ⟨(column_by_number_amended ["x".data, "y".data] 3).1 (by decide),
   (column_by_number_amended ["x".data, "y".data] 2).2.1 (by decide) (by decide)
     "y".data (by decide),
   (column_by_number_amended ["x".data, "y".data] 0).2.2.1 (by decide) (by decide)
     "y".data (by decide),
   (column_by_number_amended ["x".data, "y".data] (-5)).2.2.2 (by decide)⟩

/-- No branch of the aws.cfg initializer assigns the kms_key_arn attribute. -/
theorem initFromCfg_kms_key_arn_none (raw : Str) (attrs : S3Attrs)
    (h : initFromCfg raw = .ok attrs) : attrs.kms_key_arn = none := by
  unfold initFromCfg at h
  repeat' split at h
  all_goals cases h <;> rfl

/-- Claim C4: whatever credential source the initializer resolved, even with an
encryption key id stored, the upload step of S3Writer exit computes no extra
arguments: its hasattr test names kms_key_arn, an attribute the initializer
never assigns, so no server side encryption parameters are ever passed. -/
theorem s3_writer_upload_never_encrypted (env : VcapEnv) (awsCfg : Option Str)
    (s3_only : Bool) (attrs : S3Attrs) (k : AttrVal)
    (h : s3InitializerRun env awsCfg s3_only = .ok attrs)
    (hk : attrs.kms_key_id = some k) :
    s3WriterExitExtraArgs attrs = none := by
  have harn : attrs.kms_key_arn = none := by
    unfold s3InitializerRun initFromCfg at h
    repeat' split at h
    all_goals cases h <;> rfl
  simp [s3WriterExitExtraArgs, harn]

/-- Witness for C4: a VCAP binding with a kms key arn resolves to attributes
holding the key id abc123, and the writer exit still passes no encryption
arguments. -/
theorem s3_writer_upload_never_encrypted_witness :
    s3InitializerRun
        (.s3 ⟨"AK".data, "SK".data, "B".data,
              some "arn:aws:kms:us-east-1:123456789012:key/abc123".data⟩) none false
      = .ok ⟨some (.vstr "AK".data), some (.vstr "SK".data), some (.vstr "B".data),
             some (.vstr "abc123".data), none⟩ ∧
    s3WriterExitExtraArgs
        ⟨some (.vstr "AK".data), some (.vstr "SK".data), some (.vstr "B".data),
         some (.vstr "abc123".data), none⟩ = none :=
  ⟨by decide,
   s3_writer_upload_never_encrypted
     (.s3 ⟨"AK".data, "SK".data, "B".data,
           some "arn:aws:kms:us-east-1:123456789012:key/abc123".data⟩) none false
     ⟨some (.vstr "AK".data), some (.vstr "SK".data), some (.vstr "B".data),
      some (.vstr "abc123".data), none⟩ (.vstr "abc123".data) (by decide) (by decide)⟩

/-- Concatenation of physical lines into raw file content, a newline after
each line. -/
def joinNl (ls : List Str) : Str := ls.foldr (fun l acc => l ++ '\n' :: acc) []

theorem readlinesGo_append (A rest : Str) (acc : Str) (hA : '\n' ∉ A) :
    readlinesGo acc (A ++ '\n' :: rest)
      = ((acc.reverse ++ A) ++ ['\n']) :: readlinesGo [] rest := by
  induction A generalizing acc with
  | nil => simp [readlinesGo]
  | cons c A ih =>
    have hc : ¬ c = '\n' := fun h => hA (h ▸ List.mem_cons_self c A)
    simp only [List.cons_append, readlinesGo, if_neg hc, List.append_eq]
    rw [ih (c :: acc) (fun h => hA (List.mem_cons_of_mem c h))]
    simp

theorem readlines_joinNl (ls : List Str) (h : ∀ l ∈ ls, '\n' ∉ l) :
    readlines (joinNl ls) = ls.map (fun l => l ++ ['\n']) := by
  induction ls with
  | nil => rfl
  | cons l ls ih =>
    have hl : '\n' ∉ l := h l (List.mem_cons_self l ls)
    show readlinesGo [] (l ++ '\n' :: joinNl ls) = _
    rw [readlinesGo_append l (joinNl ls) [] hl]
    simp only [List.reverse_nil, List.nil_append, List.map_cons]
    exact congrArg _ (ih fun x hx => h x (List.mem_cons_of_mem l hx))

theorem dropWhile_idem (p : Char → Bool) (l : Str) :
    (l.dropWhile p).dropWhile p = l.dropWhile p := by
  induction l with
  | nil => rfl
  | cons a l ih =>
    by_cases h : p a <;> simp [List.dropWhile_cons, h, ih]

theorem pyrstrip_append_newline (l : Str) : pyrstrip (l ++ ['\n']) = pyrstrip l := by
  unfold pyrstrip
  rw [List.reverse_append]
  show ((['\n'] ++ l.reverse).dropWhile isPySpace).reverse = _
  rw [List.cons_append, List.nil_append, List.dropWhile_cons_of_pos (by decide)]

theorem pyrstrip_ne_nil_append (X Y : Str) (hY : pyrstrip Y ≠ []) :
    pyrstrip (X ++ Y) = X ++ pyrstrip Y := by
  have hY' : ¬ (Y.reverse.dropWhile isPySpace).isEmpty := by
    intro hc
    exact hY (by simp [pyrstrip, List.isEmpty_iff.mp hc])
  unfold pyrstrip
  rw [List.reverse_append, List.dropWhile_append, if_neg hY', List.reverse_append,
    List.reverse_reverse]

theorem pyrstrip_idem (l : Str) : pyrstrip (pyrstrip l) = pyrstrip l := by
  unfold pyrstrip
  rw [List.reverse_reverse, dropWhile_idem]

theorem pystrip_pyrstrip (l : Str) : pystrip (pyrstrip l) = pystrip l := by
  unfold pystrip
  rw [pyrstrip_idem]

theorem pyrstrip_ne_nil_of_pystrip_ne_nil (l : Str) (h : pystrip l ≠ []) :
    pyrstrip l ≠ [] := by
  intro hc
  exact h (by simp [pystrip, hc, pylstrip])

theorem pylstrip_cons_not_space (c : Char) (l : Str) (hc : isPySpace c = false) :
    pylstrip (c :: l) = c :: l := by
  unfold pylstrip
  rw [List.dropWhile_cons_of_neg (by simp [hc])]

theorem head?_pyrstrip (l : Str) (h : pyrstrip l ≠ []) :
    (pyrstrip l).head? = l.head? := by
  obtain ⟨t, ht⟩ := List.dropWhile_suffix (l := l.reverse) (p := isPySpace)
  have hl : l = pyrstrip l ++ t.reverse := by
    have := congrArg List.reverse ht
    simpa [pyrstrip, List.reverse_append] using this.symm
  obtain ⟨a, r, ha⟩ := List.exists_cons_of_ne_nil h
  conv_rhs => rw [hl]
  rw [ha]
  simp

theorem mem_pyrstrip (c : Char) (l : Str) (h : c ∈ pyrstrip l) : c ∈ l := by
  have h1 : c ∈ l.reverse.dropWhile isPySpace := by
    simpa [pyrstrip] using h
  have h2 := (List.dropWhile_sublist (l := l.reverse) (p := isPySpace)).mem h1
  simpa using h2

theorem splitOnce_not_mem (X R : Str) (hX : ':' ∉ X) :
    splitOnce ':' (X ++ ':' :: R) = (X, R) := by
  induction X with
  | nil => simp [splitOnce]
  | cons c X ih =>
    have hc : ¬ c = ':' := fun h => hX (h ▸ List.mem_cons_self c X)
    simp only [List.cons_append, splitOnce, if_neg hc, List.append_eq]
    rw [ih (fun h => hX (List.mem_cons_of_mem c h))]

theorem parseGo_cont (key : Str) (acc : List Str) (ls : List Str)
    (hc : ∀ l ∈ ls, ¬ (':' ∈ l ∧ ¬ l.head? = some ' '))
    (hne : acc ++ ls.map pystrip ≠ []) :
    parseGo (.plist acc) (some key) [] ls
      = some [(key, .vlist (acc ++ ls.map pystrip))] := by
  induction ls generalizing acc with
  | nil =>
    simp only [List.map_nil, List.append_nil] at hne ⊢
    have hlen : valLen (.plist acc) > 0 := by
      simpa [valLen, List.length_pos] using hne
    simp [parseGo, hlen, insertAssoc, flushVal]
  | cons l ls ih =>
    have hcl := hc l (List.mem_cons_self l ls)
    simp only [parseGo, if_neg hcl]
    rw [ih (acc ++ [pystrip l]) (fun x hx => hc x (List.mem_cons_of_mem l hx))
      (by simp)]
    simp

theorem head?_append_cons {α : Type} (a : α) (X R : List α) :
    ((a :: X) ++ R).head? = some a := rfl

theorem parseGo_first_line (hd : Char) (kr T : Str) (rest : List Str)
    (hsp : isPySpace hd = false) (hkc : ':' ∉ hd :: kr)
    (hT : pyrstrip ((hd :: kr) ++ ':' :: T) = (hd :: kr) ++ ':' :: T) :
    parseGo (.pstr []) none [] (((hd :: kr) ++ ':' :: T) :: rest)
      = if (pystrip T).length > 0
        then parseGo (.pstr (pystrip T)) (some (hd :: kr)) [] rest
        else parseGo (.plist []) (some (hd :: kr)) [] rest := by
  have hne : hd ≠ ' ' := by
    intro h
    rw [h] at hsp
    exact absurd hsp (by decide)
  have hcond : ':' ∈ (hd :: kr) ++ ':' :: T ∧
      ¬ ((hd :: kr) ++ ':' :: T).head? = some ' ' := by
    constructor
    · exact List.mem_append.mpr (Or.inr (List.mem_cons_self ':' T))
    · rw [head?_append_cons]
      intro h
      exact hne (by injection h)
  have hstrip : pystrip ((hd :: kr) ++ ':' :: T) = (hd :: kr) ++ ':' :: T := by
    unfold pystrip
    rw [hT]
    show pylstrip (hd :: (kr ++ ':' :: T)) = _
    rw [pylstrip_cons_not_space hd (kr ++ ':' :: T) hsp]
    rfl
  have hsplit : splitOnce ':' (pystrip ((hd :: kr) ++ ':' :: T)) = (hd :: kr, T) := by
    rw [hstrip]
    exact splitOnce_not_mem (hd :: kr) T hkc
  simp only [parseGo, if_pos hcond, valLen, List.length_nil, gt_iff_lt,
    Nat.lt_irrefl, if_false, hsplit]

theorem pystrip_space_pyrstrip (value : Str) (h : pyrstrip value ≠ []) :
    pystrip (' ' :: pyrstrip value) = pystrip value := by
  unfold pystrip
  have hidem : pyrstrip (pyrstrip value) ≠ [] := by
    rw [pyrstrip_idem]
    exact h
  have h1 : pyrstrip (' ' :: pyrstrip value) = ' ' :: pyrstrip value := by
    have h2 := pyrstrip_ne_nil_append [' '] (pyrstrip value) hidem
    simpa [pyrstrip_idem] using h2
  rw [h1]
  show pylstrip (' ' :: pyrstrip value) = _
  unfold pylstrip
  rw [List.dropWhile_cons_of_pos (by decide)]

theorem usefulFilter_cons (l : Str) (ls : List Str) (h1 : ¬ l.head? = some '#')
    (h2 : 0 < l.length) :
    List.filterMap usefulFilter (l :: ls)
      = pyrstrip l :: List.filterMap usefulFilter ls := by
  rw [List.filterMap_cons]
  unfold usefulFilter
  rw [if_pos ⟨h1, h2⟩]

theorem usefulFilter_map_items (items : List Str)
    (h : ∀ i ∈ items, ¬ i.head? = some '#') :
    List.filterMap usefulFilter (items.map (fun l => l ++ ['\n']))
      = items.map pyrstrip := by
  induction items with
  | nil => rfl
  | cons i items ih =>
    rw [List.map_cons]
    rw [usefulFilter_cons (i ++ ['\n']) _ ?_ (by simp)]
    · rw [pyrstrip_append_newline, List.map_cons,
        ih (fun x hx => h x (List.mem_cons_of_mem i hx))]
    · cases i with
      | nil => decide
      | cons c r =>
        have := h (c :: r) (List.mem_cons_self _ _)
        simpa using this

theorem newline_not_mem_line (hd : Char) (kr value : Str) (hk : '\n' ∉ hd :: kr)
    (hv : '\n' ∉ value) : '\n' ∉ (hd :: kr) ++ ':' :: ' ' :: value := by
  intro h
  rcases List.mem_append.mp h with h1 | h2
  · exact hk h1
  · rcases List.mem_cons.mp h2 with h3 | h4
    · exact absurd h3 (by decide)
    · rcases List.mem_cons.mp h4 with h5 | h6
      · exact absurd h5 (by decide)
      · exact hv h6

/-- Counterexample for C6: a list key followed by zero continuation lines does
not re-parse to an empty sequence; the unflushed empty list makes the key
absent and the lookup exits fatally. -/
theorem list_key_without_items_not_found :
    get_config_value "K".data "K:\n".data false = .fatal 0 ∧
    get_config_value "K".data "K:\n".data false ≠ .value (.vlist []) :=
  ⟨by decide, by decide⟩

/-- Claim C6 as amended: on a well-formed configuration file the parser
round-trips.  A scalar key line re-parses to exactly the stripped value
string, and a list key followed by one or more continuation lines re-parses to
the ordered sequence of those lines, each stripped of surrounding whitespace
but otherwise verbatim, leading markers included; a list key with zero
continuation lines is instead reported as absent. -/
theorem get_config_value_roundtrip (hd : Char) (kr value : Str) (items : List Str)
    (hsp : isPySpace hd = false) (hcm : hd ≠ '#')
    (hkc : ':' ∉ hd :: kr) (hkn : '\n' ∉ hd :: kr)
    (hvn : '\n' ∉ value) (hvne : pystrip value ≠ [])
    (hitems : ∀ i ∈ items,
      '\n' ∉ i ∧ ¬ i.head? = some '#' ∧ (':' ∈ i → i.head? = some ' '))
    (hN : items ≠ []) (s : Bool) :
    get_config_value (hd :: kr) ((hd :: kr) ++ ':' :: ' ' :: value ++ ['\n']) s
      = .value (.scalar (pystrip value)) ∧
    get_config_value (hd :: kr) ((hd :: kr) ++ ':' :: '\n' :: joinNl items) s
      = .value (.vlist (items.map pystrip)) := by
  have hrpv : pyrstrip value ≠ [] := pyrstrip_ne_nil_of_pystrip_ne_nil value hvne
  constructor
  · -- scalar round trip
    have hA : '\n' ∉ (hd :: kr) ++ ':' :: ' ' :: value :=
      newline_not_mem_line hd kr value hkn hvn
    have hrl : readlines ((hd :: kr) ++ ':' :: ' ' :: value ++ ['\n'])
        = [((hd :: kr) ++ ':' :: ' ' :: value) ++ ['\n']] := by
      show readlinesGo [] _ = _
      have heq : (hd :: kr) ++ ':' :: ' ' :: value ++ ['\n']
          = ((hd :: kr) ++ ':' :: ' ' :: value) ++ '\n' :: [] := by simp
      rw [heq, readlinesGo_append _ _ _ hA]
      simp [readlinesGo]
    have hpA : pyrstrip ((hd :: kr) ++ ':' :: ' ' :: value)
        = (hd :: kr) ++ ':' :: ' ' :: pyrstrip value := by
      have heq : (hd :: kr) ++ ':' :: ' ' :: value
          = ((hd :: kr) ++ [':', ' ']) ++ value := by simp
      rw [heq, pyrstrip_ne_nil_append _ _ hrpv]
      simp
    have hul : get_useful_lines ((hd :: kr) ++ ':' :: ' ' :: value ++ ['\n'])
        = [(hd :: kr) ++ ':' :: ' ' :: pyrstrip value] := by
      unfold get_useful_lines
      rw [hrl, usefulFilter_cons _ _ (fun h => hcm (by injection h)) (by simp)]
      rw [pyrstrip_append_newline, hpA]
      rfl
    have hT : pyrstrip ((hd :: kr) ++ ':' :: ' ' :: pyrstrip value)
        = (hd :: kr) ++ ':' :: ' ' :: pyrstrip value := by
      have heq : (hd :: kr) ++ ':' :: ' ' :: pyrstrip value
          = ((hd :: kr) ++ [':', ' ']) ++ pyrstrip value := by simp
      rw [heq, pyrstrip_ne_nil_append _ _ (by rw [pyrstrip_idem]; exact hrpv),
        pyrstrip_idem]
    unfold get_config_value
    rw [hul, parseGo_first_line hd kr (' ' :: pyrstrip value) [] hsp hkc hT,
      pystrip_space_pyrstrip value hrpv,
      if_pos (List.length_pos.mpr hvne)]
    have hv0 : valLen (.pstr (pystrip value)) > 0 := by
      simpa [valLen, List.length_pos] using hvne
    simp [parseGo, hv0, insertAssoc, flushVal, lookupAssoc]
  · -- list round trip
    have hkA : '\n' ∉ (hd :: kr) ++ [':'] := by
      intro h
      rcases List.mem_append.mp h with h1 | h2
      · exact hkn h1
      · exact absurd h2 (by decide)
    have hnlitems : ∀ l ∈ items, '\n' ∉ l := fun l hl => (hitems l hl).1
    have hrl2 : readlines ((hd :: kr) ++ ':' :: '\n' :: joinNl items)
        = (((hd :: kr) ++ [':']) ++ ['\n']) :: items.map (fun l => l ++ ['\n']) := by
      show readlinesGo [] _ = _
      have heq : (hd :: kr) ++ ':' :: '\n' :: joinNl items
          = ((hd :: kr) ++ [':']) ++ '\n' :: joinNl items := by simp
      rw [heq, readlinesGo_append _ _ _ hkA]
      simp only [List.reverse_nil, List.nil_append]
      exact congrArg _ (readlines_joinNl items hnlitems)
    have hpk : pyrstrip ((hd :: kr) ++ [':']) = (hd :: kr) ++ [':'] := by
      rw [pyrstrip_ne_nil_append _ _ (by decide : pyrstrip [':'] ≠ [])]
      rw [show pyrstrip [':'] = [':'] from by decide]
    have hul2 : get_useful_lines ((hd :: kr) ++ ':' :: '\n' :: joinNl items)
        = ((hd :: kr) ++ [':']) :: items.map pyrstrip := by
      unfold get_useful_lines
      rw [hrl2, usefulFilter_cons _ _ (fun h => hcm (by injection h)) (by simp)]
      rw [pyrstrip_append_newline, hpk,
        usefulFilter_map_items items (fun i hi => (hitems i hi).2.1)]
    unfold get_config_value
    rw [hul2, parseGo_first_line hd kr [] (items.map pyrstrip) hsp hkc hpk,
      if_neg (by decide)]
    have hcond : ∀ l ∈ items.map pyrstrip, ¬ (':' ∈ l ∧ ¬ l.head? = some ' ') := by
      intro l hl
      obtain ⟨i, hi, rfl⟩ := List.mem_map.mp hl
      rintro ⟨hmem, hhead⟩
      have h1 : ':' ∈ i := mem_pyrstrip ':' i hmem
      have h2 := (hitems i hi).2.2 h1
      have h3 : pyrstrip i ≠ [] := by
        intro hnil
        rw [hnil] at hmem
        exact absurd hmem (by simp)
      exact hhead (by rw [head?_pyrstrip i h3, h2])
    have hne : ([] : List Str) ++ (items.map pyrstrip).map pystrip ≠ [] := by
      simpa using hN
    rw [parseGo_cont (hd :: kr) [] (items.map pyrstrip) hcond hne]
    have hmm : (items.map pyrstrip).map pystrip = items.map pystrip := by
      rw [List.map_map]
      exact congrArg (fun f => List.map f items) (funext pystrip_pyrstrip)
    simp [lookupAssoc, hmm]

/-- Witness for the amended C6 on a concrete scalar line and a concrete
two-item list. -/
theorem get_config_value_roundtrip_witness :
    get_config_value "title".data "title:  hello \n".data false
      = .value (.scalar "hello".data) ∧
    get_config_value "LS".data ("LS".data ++ ':' :: '\n' :: joinNl ["- foo".data, "- bar".data]) false
      = .value (.vlist ["- foo".data, "- bar".data]) := by
  have h := get_config_value_roundtrip 't' "itle".data " hello ".data
    ["- foo".data, "- bar".data] (by decide) (by decide) (by decide) (by decide)
    (by decide) (by decide) (by decide) (by decide) false
  constructor
  · have h1 := h.1
    simpa using h1
  · have h2 := (get_config_value_roundtrip 'L' "S".data " hello ".data
      ["- foo".data, "- bar".data] (by decide) (by decide) (by decide) (by decide)
      (by decide) (by decide) (by decide) (by decide) false).2
    simpa using h2
